import Mathlib

/-!
Verification of the Ryze Scraper Logger node
(src/nodes/RyzeScraperLogger/RyzeScraperLogger.node.ts).

The node's `execute` method maps each loosely-typed input item to a log row
(field extraction with JavaScript `||` / `??` defaulting), inserts the row
via `insertLog` (a single parameterized MySQL INSERT with a try/finally
connection release), and collects one result record per input item, with a
`failOnError` option escalating a per-item failure to a batch-fatal error.

Input items are arbitrary JSON, so we embed a JavaScript value type with the
truthiness and numeric-coercion rules the code relies on (`x || d`,
`x ?? d`, `x > 0`, `JSON.stringify`).  The database driver and host context
are environments passed explicitly; database interactions are recorded in an
event trace so that connection-release and insert-attempt claims can be
stated.
-/

/-- A JavaScript/JSON runtime value, as received in `items[i].json`.
Numbers are modelled as integers (fractional values and NaN are outside the
model). -/
inductive JSVal where
  | undef
  | null
  | bool (b : Bool)
  | num (n : Int)
  | str (s : String)
  | arr (elems : List JSVal)
  | obj (fields : List (String × JSVal))

/-- JavaScript truthiness: `undefined`, `null`, `false`, `0`, `""` are falsy;
objects and arrays are always truthy. -/
def truthy : JSVal → Bool
  | JSVal.undef => false
  | JSVal.null => false
  | JSVal.bool b => b
  | JSVal.num n => n != 0
  | JSVal.str s => s != ""
  | JSVal.arr _ => true
  | JSVal.obj _ => true

/-- JavaScript `a || b`. -/
def jsOr (a b : JSVal) : JSVal := if truthy a then a else b

/-- JavaScript `a ?? b` (nullish coalescing). -/
def jsNullish (a b : JSVal) : JSVal :=
  match a with
  | JSVal.undef => b
  | JSVal.null => b
  | _ => a

/-- Property access `v.key`: a lookup on objects, `undefined` on any
non-object.  (Access on `null`/`undefined` would throw in JavaScript, but
every access site in the node is guarded by `|| {}` or receives the item
object itself, so those cases are unreachable.) -/
def getField : JSVal → String → JSVal
  | JSVal.obj fields, key =>
      match fields.lookup key with
      | some v => v
      | none => JSVal.undef
  | _, _ => JSVal.undef

/-- ASCII whitespace, for the whitespace stripping of `Number(string)`. -/
def isWsChar (c : Char) : Bool := c == ' ' || c == '\t' || c == '\n' || c == '\r'

/-- Strips leading and trailing whitespace from a character list. -/
def trimChars (l : List Char) : List Char :=
  ((l.dropWhile isWsChar).reverse.dropWhile isWsChar).reverse

/-- The numeric value of a decimal digit. -/
def digitVal (c : Char) : Option Nat :=
  if c.isDigit then some (c.toNat - '0'.toNat) else none

/-- Accumulates decimal digits left to right. -/
def parseNatGo : List Char → Nat → Option Nat
  | [], acc => some acc
  | c :: rest, acc =>
      match digitVal c with
      | some d => parseNatGo rest (acc * 10 + d)
      | none => none

/-- Parses a nonempty all-digit sequence. -/
def parseNatDigits : List Char → Option Nat
  | [] => none
  | cs => parseNatGo cs 0

/-- `Number(string)`: surrounding whitespace is ignored and the empty string
is 0; signed integer literals parse; anything else is NaN (`none`).
Fractional and hexadecimal numeric strings are outside the integer model. -/
def strToNum (s : String) : Option Int :=
  match trimChars s.data with
  | [] => some 0
  | '-' :: ds => (parseNatDigits ds).map (fun n => -(n : Int))
  | '+' :: ds => (parseNatDigits ds).map (fun n => (n : Int))
  | ds => (parseNatDigits ds).map (fun n => (n : Int))

mutual

/-- JavaScript `String(v)` for primitive coercion (used by `Number(v)` on
arrays; plain objects stringify to "[object Object]"). -/
def jsToString : JSVal → String
  | JSVal.undef => "undefined"
  | JSVal.null => "null"
  | JSVal.bool b => if b then "true" else "false"
  | JSVal.num n => toString n
  | JSVal.str s => s
  | JSVal.arr vs => arrToString vs
  | JSVal.obj _ => "[object Object]"

/-- Array-to-string coercion: elements joined with ",". -/
def arrToString : List JSVal → String
  | [] => ""
  | [v] => arrElemString v
  | v :: rest => arrElemString v ++ "," ++ arrToString rest

/-- An array element inside `String(array)`: `undefined`/`null` become the
empty string. -/
def arrElemString : JSVal → String
  | JSVal.undef => ""
  | JSVal.null => ""
  | JSVal.bool b => if b then "true" else "false"
  | JSVal.num n => toString n
  | JSVal.str s => s
  | JSVal.arr vs => arrToString vs
  | JSVal.obj _ => "[object Object]"

end

/-- JavaScript `Number(v)` (`none` = NaN).  Arrays coerce through their
string form; plain objects coerce to "[object Object]", which is NaN. -/
def jsToNum : JSVal → Option Int
  | JSVal.undef => none
  | JSVal.null => some 0
  | JSVal.bool b => some (if b then 1 else 0)
  | JSVal.num n => some n
  | JSVal.str s => strToNum s
  | JSVal.arr vs => strToNum (arrToString vs)
  | JSVal.obj _ => none

/-- JavaScript `v > 0`: numeric coercion, false when the coercion is NaN. -/
def jsGtZero (v : JSVal) : Bool :=
  match jsToNum v with
  | some n => decide (0 < n)
  | none => false

/-- Escapes one character for a JSON string literal. -/
def escapeChar : Char → String
  | '"' => "\\\""
  | '\\' => "\\\\"
  | '\n' => "\\n"
  | '\t' => "\\t"
  | '\r' => "\\r"
  | c => String.singleton c

/-- Escapes a string for inclusion in a JSON string literal. -/
def escapeJson (s : String) : String := String.join (s.data.map escapeChar)

mutual

/-- `JSON.stringify(v)` (no spacing).  A top-level `undefined` has no JSON
serialization in JavaScript; every call site in the node passes an object or
an `|| {}`-guarded value, so that case is unreachable and mapped to "null"
(the value `undefined` takes inside arrays). -/
def jsonStringify : JSVal → String
  | JSVal.undef => "null"
  | JSVal.null => "null"
  | JSVal.bool b => if b then "true" else "false"
  | JSVal.num n => toString n
  | JSVal.str s => "\"" ++ escapeJson s ++ "\""
  | JSVal.arr vs => "[" ++ jsonArray vs ++ "]"
  | JSVal.obj fs => "\x7b" ++ jsonMembers fs ++ "\x7d"

/-- Array elements of `JSON.stringify`, comma separated. -/
def jsonArray : List JSVal → String
  | [] => ""
  | [v] => jsonStringify v
  | v :: rest => jsonStringify v ++ "," ++ jsonArray rest

/-- Object members of `JSON.stringify`; keys with `undefined` values are
skipped, as `JSON.stringify` does. -/
def jsonMembers : List (String × JSVal) → String
  | [] => ""
  | (_, JSVal.undef) :: rest => jsonMembers rest
  | (k, v) :: rest =>
      let entry := "\"" ++ escapeJson k ++ "\":" ++ jsonStringify v
      let restStr := jsonMembers rest
      if restStr = "" then entry else entry ++ "," ++ restStr

end

/-- The node parameters, read once per batch with
`this.getNodeParameter(..., 0)` (source lines 126-133). -/
structure Config where
  scriptId : Int
  database : String
  table : String
  executionMode : String
  failOnError : Bool
  verboseLogging : Bool

/-- Host-supplied context: `this.getMode()` and `this.getWorkflow().name`. -/
structure HostCtx where
  workflowMode : String
  workflowName : Option String

/-- The `ILogData` row.  The counters are declared `number` in the source,
but the values actually stored come from `summary.<field> || 0` on untyped
input (the `as ISummary` cast is unchecked), so their runtime type is an
arbitrary JavaScript value; likewise `execution_mode` via
`execution.mode || 'regular'`. -/
structure LogData where
  script_id : Int
  execution_mode : JSVal
  execution_type : String
  workflow_name : String
  status : String
  items_processed : JSVal
  pixel_new : JSVal
  pixel_duplicates : JSVal
  pixel_updated : JSVal
  event_summary : String
  full_details : String

/-- `const summary = (input.summary || \x7b\x7d) as ISummary`. -/
def summaryOf (input : JSVal) : JSVal :=
  jsOr (getField input "summary") (JSVal.obj [])

/-- `const execution = (input.execution || \x7b\x7d) as IExecution`. -/
def executionOf (input : JSVal) : JSVal :=
  jsOr (getField input "execution") (JSVal.obj [])

/-- The `execution.mode` value seen by the mode resolution. -/
def execModeField (input : JSVal) : JSVal := getField (executionOf input) "mode"

/-- The `summary.pixel_failed` value seen by the status derivation. -/
def pixelFailedOf (input : JSVal) : JSVal :=
  getField (summaryOf input) "pixel_failed"

/-- Construction of the log row for one item (source lines 140-175):
mode resolution, execution type, workflow name, status derivation, and the
counter/serialization defaults. -/
def buildLogData (cfg : Config) (ctx : HostCtx) (input : JSVal) : LogData :=
  { script_id := cfg.scriptId
    execution_mode :=
      if cfg.executionMode = "auto" then
        jsOr (execModeField input) (JSVal.str "regular")
      else JSVal.str cfg.executionMode
    execution_type := if ctx.workflowMode = "manual" then "manual" else "scheduled"
    workflow_name :=
      match ctx.workflowName with
      | some s => if s = "" then "Unknown" else s
      | none => "Unknown"
    status := if jsGtZero (jsNullish (pixelFailedOf input) (JSVal.num 0)) then "failed" else "success"
    items_processed := jsOr (getField (summaryOf input) "total_input") (JSVal.num 0)
    pixel_new := jsOr (getField (summaryOf input) "new_items") (JSVal.num 0)
    pixel_duplicates := jsOr (getField (summaryOf input) "exact_duplicates") (JSVal.num 0)
    pixel_updated := jsOr (getField (summaryOf input) "updated_items") (JSVal.num 0)
    event_summary := jsonStringify (jsOr (getField (summaryOf input) "event_summary") (JSVal.obj []))
    full_details := jsonStringify input }

/-- The exact column tuple text of the INSERT statement's template literal
(source lines 246-248). -/
def colsTuple : String :=
  "(script_id, execution_mode, execution_type, workflow_name, status,\n\t\t\t\t items_processed, pixel_new, pixel_duplicates, pixel_updated,\n\t\t\t\t event_summary, full_details)"

/-- The part of the INSERT template after the two interpolated identifiers:
a constant, independent of the log row. -/
def insertQueryTail : String :=
  "\n\t\t\t\t" ++ colsTuple ++ "\n\t\t\tVALUES\n\t\t\t\t(?, ?, ?, ?, ?, ?, ?, ?, ?, ?, ?)\n\t\t"

/-- The `query` template literal of `insertLog` (source lines 244-252): only
the database and table identifiers are interpolated into the text. -/
def insertQuery (database table : String) : String :=
  "\n\t\t\tINSERT INTO " ++ database ++ "." ++ table ++ insertQueryTail

/-- The positional parameter array passed to `connection.execute`
(source lines 254-266), in source order. -/
def bindValues (ld : LogData) : List JSVal :=
  [JSVal.num ld.script_id, ld.execution_mode, JSVal.str ld.execution_type,
   JSVal.str ld.workflow_name, JSVal.str ld.status, ld.items_processed,
   ld.pixel_new, ld.pixel_duplicates, ld.pixel_updated,
   JSVal.str ld.event_summary, JSVal.str ld.full_details]

/-- The column names of the INSERT statement, in listed order. -/
def logColumns : List String :=
  ["script_id", "execution_mode", "execution_type", "workflow_name", "status",
   "items_processed", "pixel_new", "pixel_duplicates", "pixel_updated",
   "event_summary", "full_details"]

/-- The log-row field designated by a column name. -/
def logFieldValue (ld : LogData) : String → JSVal
  | "script_id" => JSVal.num ld.script_id
  | "execution_mode" => ld.execution_mode
  | "execution_type" => JSVal.str ld.execution_type
  | "workflow_name" => JSVal.str ld.workflow_name
  | "status" => JSVal.str ld.status
  | "items_processed" => ld.items_processed
  | "pixel_new" => ld.pixel_new
  | "pixel_duplicates" => ld.pixel_duplicates
  | "pixel_updated" => ld.pixel_updated
  | "event_summary" => JSVal.str ld.event_summary
  | "full_details" => JSVal.str ld.full_details
  | _ => JSVal.undef

/-- Number of `?` placeholders in a SQL string. -/
def countQM (s : String) : Nat := s.data.count '?'

/-- Splits a character list at commas. -/
def splitComma : List Char → List (List Char)
  | [] => [[]]
  | c :: rest =>
      if c = ',' then [] :: splitComma rest
      else
        match splitComma rest with
        | [] => [[c]]
        | g :: gs => (c :: g) :: gs

/-- Splits a parenthesized, comma-separated column tuple into trimmed names. -/
def parseCols (s : String) : List String :=
  (splitComma ((s.data.drop 1).dropLast)).map (fun cs => String.mk (trimChars cs))

/-- One observable interaction of `insertLog` with its environment, tagged
with the item index: the credential lookup, the `createConnection` call, the
`connection.execute` call (with statement text and bound parameters) and the
`connection.end` call. -/
inductive Event where
  | credCall (i : Nat) (ok : Bool)
  | connCall (i : Nat) (ok : Bool)
  | execCall (i : Nat) (query : String) (params : List JSVal) (ok : Bool)
  | endCall (i : Nat)

/-- The index an event is tagged with. -/
def eventIndex : Event → Nat
  | Event.credCall i _ => i
  | Event.connCall i _ => i
  | Event.execCall i _ _ _ => i
  | Event.endCall i => i

/-- Recognizes the `connection.execute` event of item `j`. -/
def isExecAt (j : Nat) : Event → Bool
  | Event.execCall i _ _ _ => i == j
  | _ => false

/-- Recognizes the `connection.end` event of item `j`. -/
def isEndAt (j : Nat) : Event → Bool
  | Event.endCall i => i == j
  | _ => false

/-- The environment behind the awaited calls of one batch: the outcome of
the credential lookup, `createConnection`, `connection.execute` and
`connection.end` per item index, and the timestamp taken on success.
`Except.error msg` models a rejected promise with `error.message = msg`. -/
structure Env where
  credRes : Nat → Except String Unit
  connRes : Nat → Except String Unit
  execRes : Nat → String → List JSVal → Except String Unit
  endRes : Nat → Except String Unit
  timestamp : Nat → String

/-- Whether an `Except` is a success. -/
def exOk : Except String Unit → Bool
  | Except.ok _ => true
  | Except.error _ => false

/-- The `insertLog` helper (source lines 222-268) for the item at index `i`:
looks up credentials, opens a connection, executes the parameterized INSERT,
and closes the connection in a `finally` block.  Per JavaScript semantics, a
rejection from `connection.end()` in the `finally` replaces the result of
the `try` block; failing to get credentials or to connect returns before any
connection exists, so no `end` call is recorded there. -/
def insertLog (env : Env) (i : Nat) (database table : String) (logData : LogData) :
    Except String Unit × List Event :=
  match env.credRes i with
  | Except.error e => (Except.error e, [Event.credCall i false])
  | Except.ok _ =>
    match env.connRes i with
    | Except.error e => (Except.error e, [Event.credCall i true, Event.connCall i false])
    | Except.ok _ =>
      let execR := env.execRes i (insertQuery database table) (bindValues logData)
      let endR := env.endRes i
      let res : Except String Unit :=
        match endR with
        | Except.error e2 => Except.error e2
        | Except.ok _ => execR
      (res,
       [Event.credCall i true, Event.connCall i true,
        Event.execCall i (insertQuery database table) (bindValues logData) (exOk execR),
        Event.endCall i])

/-- The batch-fatal `NodeOperationError` thrown when `failOnError` is set:
message and `itemIndex`. -/
structure BatchError where
  message : String
  itemIndex : Nat

/-- One result record pushed into `results`: either the success envelope
`\x7bsuccess: true, logged_at, script_id, log_data\x7d` or the failure
envelope `\x7bsuccess: false, error, script_id\x7d`, each with its
`pairedItem` index. -/
inductive ResultRecord where
  | success (logged_at : String) (script_id : Int) (log_data : LogData) (pairedItem : Nat)
  | failure (error : String) (script_id : Int) (pairedItem : Nat)

/-- The `pairedItem` metadata of a result record. -/
def ResultRecord.pairedItem : ResultRecord → Nat
  | ResultRecord.success _ _ _ i => i
  | ResultRecord.failure _ _ i => i

/-- The work done for the item at index `i`: build the log row and run
`insertLog` with the batch-level database and table. -/
def stepOf (cfg : Config) (ctx : HostCtx) (env : Env) (i : Nat) (item : JSVal) :
    Except String Unit × List Event :=
  insertLog env i cfg.database cfg.table (buildLogData cfg ctx item)

/-- Prepends a result record to a successful accumulation; an error
passes through (the thrown error discards the accumulated results). -/
def joinOk (r : ResultRecord) :
    Except BatchError (List ResultRecord) → Except BatchError (List ResultRecord)
  | Except.ok rs => Except.ok (r :: rs)
  | Except.error e => Except.error e

/-- The per-item loop of `execute` (source lines 137-216), starting at item
index `i`: on insert success push a success record; on failure either throw
the batch-fatal error (when `failOnError` is set) or push a failure record
and continue.  The second component is the trace of database interactions,
which persist even when a later fatal error discards the results. -/
def runItems (cfg : Config) (ctx : HostCtx) (env : Env) :
    Nat → List JSVal → Except BatchError (List ResultRecord) × List Event
  | _, [] => (Except.ok [], [])
  | i, item :: rest =>
    match (stepOf cfg ctx env i item).fst with
    | Except.ok _ =>
        (joinOk (ResultRecord.success (env.timestamp i) cfg.scriptId (buildLogData cfg ctx item) i)
           (runItems cfg ctx env (i + 1) rest).fst,
         (stepOf cfg ctx env i item).snd ++ (runItems cfg ctx env (i + 1) rest).snd)
    | Except.error msg =>
        if cfg.failOnError then
          (Except.error ⟨"Failed to log execution: " ++ msg, i⟩, (stepOf cfg ctx env i item).snd)
        else
          (joinOk (ResultRecord.failure msg cfg.scriptId i)
             (runItems cfg ctx env (i + 1) rest).fst,
           (stepOf cfg ctx env i item).snd ++ (runItems cfg ctx env (i + 1) rest).snd)

/-- `return [results]`: the batch returns a single output batch. -/
def wrapBatches :
    Except BatchError (List ResultRecord) → Except BatchError (List (List ResultRecord))
  | Except.ok rs => Except.ok [rs]
  | Except.error e => Except.error e

/-- The `execute` method (source lines 122-218): parameters are read once
per batch (`cfg`), then the items are processed sequentially from index 0;
the successful return value is `[results]`. -/
def execute (cfg : Config) (ctx : HostCtx) (env : Env) (items : List JSVal) :
    Except BatchError (List (List ResultRecord)) × List Event :=
  (wrapBatches (runItems cfg ctx env 0 items).fst, (runItems cfg ctx env 0 items).snd)

/-- The projection of a trace to its insert attempts: for each
`connection.execute` call, the statement text and the first bound parameter
(the script id position). -/
def insertIdents (evs : List Event) : List (String × Option JSVal) :=
  evs.filterMap (fun e =>
    match e with
    | Event.execCall _ q ps _ => some (q, ps.head?)
    | _ => none)

/-! Concrete fixtures used by witnesses and counterexamples. -/

/-- A configuration using the node's default parameter values, with script
id 3001 and `failOnError` off. -/
def cfg0 : Config := ⟨3001, "backoffice", "n8n_scraper_logs", "auto", false, false⟩

/-- The same configuration with `failOnError` on. -/
def cfgFail : Config := { cfg0 with failOnError := true }

/-- Host context of a manually triggered run. -/
def ctx0 : HostCtx := ⟨"manual", some "My Workflow"⟩

/-- An environment in which every awaited call succeeds. -/
def envAllOk : Env :=
  ⟨fun _ => Except.ok (), fun _ => Except.ok (), fun _ _ _ => Except.ok (),
   fun _ => Except.ok (), fun _ => "2024-01-01T00:00:00.000Z"⟩

/-- An environment in which every `connection.execute` rejects. -/
def envExecFail : Env := { envAllOk with execRes := fun _ _ _ => Except.error "insert failed" }

/-- An environment in which the insert of item `f` rejects with `msg` and
everything else succeeds. -/
def envFailAt (f : Nat) (msg : String) : Env :=
  { envAllOk with execRes := fun i _ _ => if i = f then Except.error msg else Except.ok () }

/-- An input item with no `summary` and no `execution` keys. -/
def itemEmpty : JSVal := JSVal.obj []

/-- A well-formed Ryze Pixel Sender output item. -/
def itemFull : JSVal :=
  JSVal.obj
    [("summary", JSVal.obj
        [("total_input", JSVal.num 10), ("new_items", JSVal.num 4),
         ("exact_duplicates", JSVal.num 5), ("updated_items", JSVal.num 1),
         ("pixel_failed", JSVal.num 0),
         ("event_summary", JSVal.obj [("click", JSVal.num 3), ("view", JSVal.num 10)])]),
     ("execution", JSVal.obj [("mode", JSVal.str "monthly")])]

/-- `itemFull` with every field value changed. -/
def itemFullB : JSVal :=
  JSVal.obj
    [("summary", JSVal.obj
        [("total_input", JSVal.num 70), ("new_items", JSVal.num 60),
         ("exact_duplicates", JSVal.num 8), ("updated_items", JSVal.num 2),
         ("pixel_failed", JSVal.num 3),
         ("event_summary", JSVal.obj [("click", JSVal.num 1)])]),
     ("execution", JSVal.obj [("mode", JSVal.str "regular")])]

/-- An item whose `pixel_failed` holds the numeric string "5". -/
def cexStrFive : JSVal :=
  JSVal.obj [("summary", JSVal.obj [("pixel_failed", JSVal.str "5")])]

/-- An item whose `execution.mode` is present but is the empty string. -/
def cexEmptyMode : JSVal :=
  JSVal.obj [("execution", JSVal.obj [("mode", JSVal.str "")])]

/-- An item whose `summary.total_input` is a truthy non-numeric value. -/
def cexNonNum : JSVal :=
  JSVal.obj [("summary", JSVal.obj [("total_input", JSVal.str "n/a")])]

/-- Being a strictly positive number (the claim's reading of
"is a number strictly greater than zero"). -/
def isPosNum : JSVal → Prop
  | JSVal.num n => 0 < n
  | _ => False

/-- Being a number. -/
def isNumVal : JSVal → Prop
  | JSVal.num _ => True
  | _ => False

/-- The default configuration with the `monthly` selector. -/
def cfgMonthlyW : Config := { cfg0 with executionMode := "monthly" }

set_option maxRecDepth 20000

/-- Number of `?` occurrences distributes over string concatenation. -/
theorem countQM_append (a b : String) : countQM (a ++ b) = countQM a + countQM b := by
  cases a; cases b; simp [countQM]

/-- C2 (amended): the Log Row status is "failed" iff the value of
`summary.pixel_failed`, defaulted to 0 when absent or null, coerces to a
number strictly greater than zero under JavaScript comparison semantics; in
particular, when `pixel_failed` is a number the status is "failed" iff it is
strictly positive, and when it is absent the status is "success". -/
theorem status_failed_iff_coerced_positive (cfg : Config) (ctx : HostCtx) (input : JSVal) :
    ((buildLogData cfg ctx input).status = "failed" ↔
      jsGtZero (jsNullish (pixelFailedOf input) (JSVal.num 0)) = true) ∧
    (∀ n : Int, pixelFailedOf input = JSVal.num n →
      ((buildLogData cfg ctx input).status = "failed" ↔ 0 < n)) ∧
    (pixelFailedOf input = JSVal.undef → (buildLogData cfg ctx input).status = "success") := by
  refine ⟨?_, ?_, ?_⟩
  · by_cases h : jsGtZero (jsNullish (pixelFailedOf input) (JSVal.num 0)) = true
    · simp [buildLogData, h]
    · simp [buildLogData, h]
  · intro n hn
    by_cases h0 : (0 : Int) < n
    · simp [buildLogData, hn, jsNullish, jsGtZero, jsToNum, h0]
    · simp [buildLogData, hn, jsNullish, jsGtZero, jsToNum, h0]
  · intro h
    simp [buildLogData, h, jsNullish, jsGtZero, jsToNum]

/-- C2 counterexample: for the item whose `summary.pixel_failed` is the
string "5" — not a number — the code still derives status "failed", because
JavaScript evaluates `("5" ?? 0) > 0` to true by numeric coercion. -/
theorem status_claim_counterexample :
    pixelFailedOf cexStrFive = JSVal.str "5" ∧
    (buildLogData cfg0 ctx0 cexStrFive).status = "failed" ∧
    ¬ isPosNum (JSVal.str "5") :=
  ⟨rfl, rfl, fun h => h⟩

/-- C2 witness: a numeric `pixel_failed` of 3 gives "failed" iff 0 < 3, and
an absent `pixel_failed` gives "success". -/
theorem status_failed_iff_coerced_positive_witness :
    ((buildLogData cfg0 ctx0 itemFullB).status = "failed" ↔ (0 : Int) < 3) ∧
    ((buildLogData cfg0 ctx0 itemEmpty).status = "success") :=
  ⟨(status_failed_iff_coerced_positive cfg0 ctx0 itemFullB).2.1 3 rfl,
   (status_failed_iff_coerced_positive cfg0 ctx0 itemEmpty).2.2 rfl⟩

/-- C3 (amended): when the selector is not `auto` the configured mode is
used verbatim regardless of `execution.mode`; when the selector is `auto`
and `execution.mode` is truthy (in particular a nonempty string) the
effective mode is `execution.mode`; when the selector is `auto` and
`execution.mode` is absent or falsy (empty string, 0, null, false) the
effective mode is the literal "regular". -/
theorem effective_mode_resolution (cfg : Config) (ctx : HostCtx) (input : JSVal) :
    (cfg.executionMode ≠ "auto" →
      (buildLogData cfg ctx input).execution_mode = JSVal.str cfg.executionMode) ∧
    (cfg.executionMode = "auto" → truthy (execModeField input) = true →
      (buildLogData cfg ctx input).execution_mode = execModeField input) ∧
    (cfg.executionMode = "auto" → truthy (execModeField input) = false →
      (buildLogData cfg ctx input).execution_mode = JSVal.str "regular") := by
  refine ⟨fun h => ?_, fun h ht => ?_, fun h ht => ?_⟩
  · simp [buildLogData, h]
  · simp [buildLogData, h, jsOr, ht]
  · simp [buildLogData, h, jsOr, ht]

/-- C3 counterexample: with the `auto` selector and `execution.mode` present
but equal to the empty string, the effective mode is "regular", not the
present `execution.mode` value, because the code uses
`execution.mode || 'regular'` and "" is falsy. -/
theorem mode_claim_counterexample :
    cfg0.executionMode = "auto" ∧
    execModeField cexEmptyMode = JSVal.str "" ∧
    (buildLogData cfg0 ctx0 cexEmptyMode).execution_mode = JSVal.str "regular" ∧
    JSVal.str "regular" ≠ JSVal.str "" := by
  refine ⟨rfl, rfl, rfl, ?_⟩
  intro h
  injection h with h2
  exact absurd h2 (by decide)

/-- C3 witness: the three branches of the amended mode resolution at
concrete inputs. -/
theorem effective_mode_resolution_witness :
    ((buildLogData cfgMonthlyW ctx0 itemFull).execution_mode = JSVal.str "monthly") ∧
    ((buildLogData cfg0 ctx0 itemFull).execution_mode = execModeField itemFull) ∧
    ((buildLogData cfg0 ctx0 itemEmpty).execution_mode = JSVal.str "regular") :=
  ⟨(effective_mode_resolution cfgMonthlyW ctx0 itemFull).1 (by decide),
   (effective_mode_resolution cfg0 ctx0 itemFull).2.1 rfl rfl,
   (effective_mode_resolution cfg0 ctx0 itemEmpty).2.2 rfl rfl⟩

/-- C4 (amended): each of the four counters is zero whenever the
corresponding summary field is absent or falsy (absent, null, 0, false,
empty string), but a present truthy value — numeric or not — is passed
through unchanged by `|| 0`; `event_summary` serializes as the empty mapping
when absent; an item with no `summary` and no `execution` keys yields all
counters zero, mode "regular" under the `auto` selector, status "success",
an empty `event_summary`, and its processing raises no error (a batch of
such an item returns a success record whenever the insert succeeds). -/
theorem counter_defaults_and_empty_item (cfg : Config) (ctx : HostCtx) (input : JSVal) :
    (truthy (getField (summaryOf input) "total_input") = false →
      (buildLogData cfg ctx input).items_processed = JSVal.num 0) ∧
    (truthy (getField (summaryOf input) "new_items") = false →
      (buildLogData cfg ctx input).pixel_new = JSVal.num 0) ∧
    (truthy (getField (summaryOf input) "exact_duplicates") = false →
      (buildLogData cfg ctx input).pixel_duplicates = JSVal.num 0) ∧
    (truthy (getField (summaryOf input) "updated_items") = false →
      (buildLogData cfg ctx input).pixel_updated = JSVal.num 0) ∧
    (truthy (getField (summaryOf input) "total_input") = true →
      (buildLogData cfg ctx input).items_processed = getField (summaryOf input) "total_input") ∧
    (truthy (getField (summaryOf input) "event_summary") = false →
      (buildLogData cfg ctx input).event_summary = jsonStringify (JSVal.obj [])) ∧
    (getField input "summary" = JSVal.undef → getField input "execution" = JSVal.undef →
     cfg.executionMode = "auto" →
      (buildLogData cfg ctx input).items_processed = JSVal.num 0 ∧
      (buildLogData cfg ctx input).pixel_new = JSVal.num 0 ∧
      (buildLogData cfg ctx input).pixel_duplicates = JSVal.num 0 ∧
      (buildLogData cfg ctx input).pixel_updated = JSVal.num 0 ∧
      (buildLogData cfg ctx input).execution_mode = JSVal.str "regular" ∧
      (buildLogData cfg ctx input).status = "success" ∧
      (buildLogData cfg ctx input).event_summary = jsonStringify (JSVal.obj [])) ∧
    (∀ env : Env, env.credRes 0 = Except.ok () → env.connRes 0 = Except.ok () →
     env.endRes 0 = Except.ok () → (∀ q ps, env.execRes 0 q ps = Except.ok ()) →
      (execute cfg ctx env [input]).fst =
        Except.ok [[ResultRecord.success (env.timestamp 0) cfg.scriptId
          (buildLogData cfg ctx input) 0]]) := by
  refine ⟨fun h => ?_, fun h => ?_, fun h => ?_, fun h => ?_, fun h => ?_, fun h => ?_,
    fun hs he hm => ?_, fun env h1 h2 h3 h4 => ?_⟩
  · simp [buildLogData, jsOr, h]
  · simp [buildLogData, jsOr, h]
  · simp [buildLogData, jsOr, h]
  · simp [buildLogData, jsOr, h]
  · simp [buildLogData, jsOr, h]
  · simp [buildLogData, jsOr, h]
  · have hsum : summaryOf input = JSVal.obj [] := by
      simp [summaryOf, jsOr, hs, truthy]
    have hexe : executionOf input = JSVal.obj [] := by
      simp [executionOf, jsOr, he, truthy]
    refine ⟨?_, ?_, ?_, ?_, ?_, ?_, ?_⟩ <;>
      simp [buildLogData, pixelFailedOf, execModeField, hsum, hexe, hm,
        getField, jsOr, truthy, jsNullish, jsGtZero, jsToNum]
  · simp only [execute, runItems, stepOf, insertLog, h1, h2, h3, h4]
    simp [wrapBatches, joinOk, runItems]

/-- C4 counterexample: `summary.total_input` holding the truthy non-numeric
string "n/a" is not defaulted to zero — `"n/a" || 0` evaluates to "n/a",
which is stored as `items_processed`. -/
theorem counter_default_counterexample :
    getField (summaryOf cexNonNum) "total_input" = JSVal.str "n/a" ∧
    ¬ isNumVal (JSVal.str "n/a") ∧
    (buildLogData cfg0 ctx0 cexNonNum).items_processed = JSVal.str "n/a" ∧
    JSVal.str "n/a" ≠ JSVal.num 0 :=
  ⟨rfl, fun h => h, rfl, fun h => JSVal.noConfusion h⟩

/-- C4 witness: the defaulting and empty-item conclusions at the concrete
empty item, and the no-error conclusion in an all-success environment. -/
theorem counter_defaults_and_empty_item_witness :
    ((buildLogData cfg0 ctx0 itemEmpty).items_processed = JSVal.num 0 ∧
     (buildLogData cfg0 ctx0 itemEmpty).pixel_new = JSVal.num 0 ∧
     (buildLogData cfg0 ctx0 itemEmpty).pixel_duplicates = JSVal.num 0 ∧
     (buildLogData cfg0 ctx0 itemEmpty).pixel_updated = JSVal.num 0 ∧
     (buildLogData cfg0 ctx0 itemEmpty).execution_mode = JSVal.str "regular" ∧
     (buildLogData cfg0 ctx0 itemEmpty).status = "success" ∧
     (buildLogData cfg0 ctx0 itemEmpty).event_summary = jsonStringify (JSVal.obj [])) ∧
    (execute cfg0 ctx0 envAllOk [itemEmpty]).fst =
      Except.ok [[ResultRecord.success (envAllOk.timestamp 0) cfg0.scriptId
        (buildLogData cfg0 ctx0 itemEmpty) 0]] :=
  ⟨(counter_defaults_and_empty_item cfg0 ctx0 itemEmpty).2.2.2.2.2.2.1 rfl rfl rfl,
   (counter_defaults_and_empty_item cfg0 ctx0 itemEmpty).2.2.2.2.2.2.2 envAllOk rfl rfl rfl
     (fun _ _ => rfl)⟩

/-- C7: in every invocation of `insertLog` in which the connection is
successfully created, the `finally` block calls `connection.end` exactly
once, as the last interaction before the helper returns or propagates an
error — including when the insert statement itself fails. -/
theorem insertLog_releases_connection (env : Env) (i : Nat) (db tbl : String) (ld : LogData)
    (hcred : env.credRes i = Except.ok ()) (hconn : env.connRes i = Except.ok ()) :
    List.countP (isEndAt i) (insertLog env i db tbl ld).snd = 1 ∧
    (insertLog env i db tbl ld).snd.getLast? = some (Event.endCall i) := by
  simp only [insertLog, hcred, hconn]
  constructor
  · simp [isEndAt, List.countP_cons]
  · rfl

/-- C7 witness: with an environment whose insert rejects, the connection is
still released exactly once, and last. -/
theorem insertLog_releases_connection_witness :
    List.countP (isEndAt 0)
      (insertLog envExecFail 0 "backoffice" "n8n_scraper_logs"
        (buildLogData cfg0 ctx0 itemEmpty)).snd = 1 ∧
    (insertLog envExecFail 0 "backoffice" "n8n_scraper_logs"
      (buildLogData cfg0 ctx0 itemEmpty)).snd.getLast? = some (Event.endCall 0) :=
  insertLog_releases_connection envExecFail 0 "backoffice" "n8n_scraper_logs"
    (buildLogData cfg0 ctx0 itemEmpty) rfl rfl

/-- C8: the INSERT statement text contains exactly 11 placeholders; its
column tuple names exactly the 11 log-row fields in order; the bound
parameter array is exactly those 11 fields in the listed column order; and
the statement text is the constant template with only the database and
table identifiers interpolated — the log-row values never appear in it. -/
theorem insert_statement_shape (db tbl : String) (ld : LogData)
    (hdb : countQM db = 0) (htbl : countQM tbl = 0) :
    countQM (insertQuery db tbl) = 11 ∧
    parseCols colsTuple = logColumns ∧
    logColumns.length = 11 ∧
    bindValues ld = logColumns.map (logFieldValue ld) ∧
    insertQuery db tbl = "\n\t\t\tINSERT INTO " ++ db ++ "." ++ tbl ++ insertQueryTail := by
  refine ⟨?_, by decide, by decide, rfl, rfl⟩
  have h1 : countQM "\n\t\t\tINSERT INTO " = 0 := by decide
  have h2 : countQM "." = 0 := by decide
  have h3 : countQM insertQueryTail = 11 := by decide
  simp [insertQuery, countQM_append, h1, h2, h3, hdb, htbl]

/-- C8 witness: the statement shape at the default database and table names
and a concrete log row. -/
theorem insert_statement_shape_witness :
    countQM "backoffice" = 0 ∧ countQM "n8n_scraper_logs" = 0 ∧
    (countQM (insertQuery "backoffice" "n8n_scraper_logs") = 11 ∧
     parseCols colsTuple = logColumns ∧
     logColumns.length = 11 ∧
     bindValues (buildLogData cfg0 ctx0 itemFull) =
       logColumns.map (logFieldValue (buildLogData cfg0 ctx0 itemFull)) ∧
     insertQuery "backoffice" "n8n_scraper_logs" =
       "\n\t\t\tINSERT INTO " ++ "backoffice" ++ "." ++ "n8n_scraper_logs" ++ insertQueryTail) :=
  ⟨by decide, by decide,
   insert_statement_shape "backoffice" "n8n_scraper_logs"
     (buildLogData cfg0 ctx0 itemFull) (by decide) (by decide)⟩

/-- When credential lookup, connection and `connection.end` succeed,
`insertLog` returns the insert outcome and the four-event trace. -/
theorem insertLog_ok_env (env : Env) (i : Nat) (db tbl : String) (ld : LogData)
    (hc : env.credRes i = Except.ok ()) (hn : env.connRes i = Except.ok ())
    (he : env.endRes i = Except.ok ()) :
    insertLog env i db tbl ld =
      (env.execRes i (insertQuery db tbl) (bindValues ld),
       [Event.credCall i true, Event.connCall i true,
        Event.execCall i (insertQuery db tbl) (bindValues ld)
          (exOk (env.execRes i (insertQuery db tbl) (bindValues ld))),
        Event.endCall i]) := by
  simp only [insertLog, hc, hn, he]

/-- With `failOnError` off the loop always returns a success value with one
result per item, paired positionally (starting at index `i`). -/
theorem runItems_ok_all (cfg : Config) (ctx : HostCtx) (env : Env)
    (hfo : cfg.failOnError = false) :
    ∀ (items : List JSVal) (i : Nat), ∃ rs : List ResultRecord,
      (runItems cfg ctx env i items).fst = Except.ok rs ∧
      rs.length = items.length ∧
      ∀ k, k < items.length → rs[k]?.map ResultRecord.pairedItem = some (i + k) := by
  intro items
  induction items with
  | nil =>
      intro i
      exact ⟨[], rfl, rfl, fun k hk => absurd hk (Nat.not_lt_zero k)⟩
  | cons item rest ih =>
      intro i
      obtain ⟨rs, h1, h2, h3⟩ := ih (i + 1)
      cases hstep : (stepOf cfg ctx env i item).fst with
      | ok u =>
          refine ⟨ResultRecord.success (env.timestamp i) cfg.scriptId
            (buildLogData cfg ctx item) i :: rs, ?_, ?_, ?_⟩
          · simp only [runItems, hstep, joinOk, h1]
          · simp [h2]
          · intro k hk
            cases k with
            | zero => simp [ResultRecord.pairedItem]
            | succ k' =>
                have hk' : k' < rest.length := by
                  simpa using Nat.lt_of_succ_lt_succ hk
                have := h3 k' hk'
                simp only [List.getElem?_cons_succ, this]
                congr 1
                omega
      | error msg =>
          refine ⟨ResultRecord.failure msg cfg.scriptId i :: rs, ?_, ?_, ?_⟩
          · simp only [runItems, hstep, hfo, joinOk, h1, if_false, Bool.false_eq_true]
          · simp [h2]
          · intro k hk
            cases k with
            | zero => simp [ResultRecord.pairedItem]
            | succ k' =>
                have hk' : k' < rest.length := by
                  simpa using Nat.lt_of_succ_lt_succ hk
                have := h3 k' hk'
                simp only [List.getElem?_cons_succ, this]
                congr 1
                omega

/-- When no item's insert fails, the loop returns one success record per
item, paired positionally, regardless of `failOnError`. -/
theorem runItems_ok_noFail (cfg : Config) (ctx : HostCtx) (env : Env) :
    ∀ (items : List JSVal) (i : Nat),
      (∀ k (h : k < items.length), (stepOf cfg ctx env (i + k) items[k]).fst = Except.ok ()) →
      ∃ rs : List ResultRecord,
        (runItems cfg ctx env i items).fst = Except.ok rs ∧
        rs.length = items.length ∧
        ∀ k, k < items.length → rs[k]?.map ResultRecord.pairedItem = some (i + k) := by
  intro items
  induction items with
  | nil =>
      intro i _
      exact ⟨[], rfl, rfl, fun k hk => absurd hk (Nat.not_lt_zero k)⟩
  | cons item rest ih =>
      intro i H
      have hstep : (stepOf cfg ctx env i item).fst = Except.ok () := by
        have h0 := H 0 (by simp)
        simpa using h0
      obtain ⟨rs, h1, h2, h3⟩ := ih (i + 1) (fun k hk => by
        have h' := H (k + 1) (by simpa using Nat.succ_lt_succ hk)
        rw [List.getElem_cons_succ] at h'
        have harith : i + (k + 1) = i + 1 + k := by omega
        rw [harith] at h'
        exact h')
      refine ⟨ResultRecord.success (env.timestamp i) cfg.scriptId
        (buildLogData cfg ctx item) i :: rs, ?_, ?_, ?_⟩
      · simp only [runItems, hstep, joinOk, h1]
      · simp [h2]
      · intro k hk
        cases k with
        | zero => simp [ResultRecord.pairedItem]
        | succ k' =>
            have hk' : k' < rest.length := by simpa using Nat.lt_of_succ_lt_succ hk
            have := h3 k' hk'
            simp only [List.getElem?_cons_succ, this]
            congr 1
            omega

/-- C1: when `failOnError` is off, or when no item's insert fails, `execute`
returns exactly one output batch, its length equals the input batch length,
and the record at every position `k` carries `pairedItem = k`, for success
and failure envelopes alike. -/
theorem execute_preserves_length_and_pairing (cfg : Config) (ctx : HostCtx) (env : Env)
    (items : List JSVal)
    (H : cfg.failOnError = false ∨
      ∀ k (h : k < items.length), (stepOf cfg ctx env k items[k]).fst = Except.ok ()) :
    ∃ rs : List ResultRecord,
      (execute cfg ctx env items).fst = Except.ok [rs] ∧
      rs.length = items.length ∧
      ∀ k, k < items.length → rs[k]?.map ResultRecord.pairedItem = some k := by
  have hmain : ∃ rs : List ResultRecord,
      (runItems cfg ctx env 0 items).fst = Except.ok rs ∧
      rs.length = items.length ∧
      ∀ k, k < items.length → rs[k]?.map ResultRecord.pairedItem = some (0 + k) := by
    rcases H with h | h
    · exact runItems_ok_all cfg ctx env h items 0
    · exact runItems_ok_noFail cfg ctx env items 0 (by simpa using h)
  obtain ⟨rs, h1, h2, h3⟩ := hmain
  refine ⟨rs, ?_, h2, fun k hk => by simpa using h3 k hk⟩
  simp [execute, h1, wrapBatches]

/-- C1 witness: a three-item batch with a failing middle insert and
`failOnError` off still yields one same-length, positionally paired batch. -/
theorem execute_preserves_length_and_pairing_witness :
    cfg0.failOnError = false ∧
    ∃ rs : List ResultRecord,
      (execute cfg0 ctx0 (envFailAt 1 "boom") [itemFull, itemEmpty, itemFullB]).fst =
        Except.ok [rs] ∧
      rs.length = [itemFull, itemEmpty, itemFullB].length ∧
      ∀ k, k < [itemFull, itemEmpty, itemFullB].length →
        rs[k]?.map ResultRecord.pairedItem = some k :=
  ⟨rfl, execute_preserves_length_and_pairing cfg0 ctx0 (envFailAt 1 "boom")
    [itemFull, itemEmpty, itemFullB] (Or.inl rfl)⟩

/-- The count of `connection.execute` events of index `j` in one item's
four-event trace. -/
theorem countP_block (j i : Nat) (q : String) (ps : List JSVal) (b : Bool) :
    List.countP (isExecAt j)
      [Event.credCall i true, Event.connCall i true, Event.execCall i q ps b,
       Event.endCall i] = if i = j then 1 else 0 := by
  by_cases h : i = j <;> simp [isExecAt, List.countP_cons, h]

/-- With `failOnError` off, connections always available, and exactly the
inserts of item `f` failing with `msg`: the loop returns one record per item
— a failure record at `f`, success records elsewhere — and each in-range
index gets exactly one `connection.execute` attempt. -/
theorem runItems_isolated (cfg : Config) (ctx : HostCtx) (env : Env)
    (hfo : cfg.failOnError = false)
    (hcred : ∀ j, env.credRes j = Except.ok ())
    (hconn : ∀ j, env.connRes j = Except.ok ())
    (hend : ∀ j, env.endRes j = Except.ok ())
    (f : Nat) (msg : String)
    (hfail : ∀ q ps, env.execRes f q ps = Except.error msg)
    (hok : ∀ j, j ≠ f → ∀ q ps, env.execRes j q ps = Except.ok ()) :
    ∀ (items : List JSVal) (i : Nat), ∃ rs : List ResultRecord,
      (runItems cfg ctx env i items).fst = Except.ok rs ∧
      rs.length = items.length ∧
      (∀ k (h : k < items.length),
        rs[k]? = some (if i + k = f then ResultRecord.failure msg cfg.scriptId f
          else ResultRecord.success (env.timestamp (i + k)) cfg.scriptId
            (buildLogData cfg ctx items[k]) (i + k))) ∧
      (∀ j, List.countP (isExecAt j) (runItems cfg ctx env i items).snd =
        if i ≤ j ∧ j < i + items.length then 1 else 0) := by
  intro items
  induction items with
  | nil =>
      intro i
      refine ⟨[], rfl, rfl, fun k hk => absurd hk (Nat.not_lt_zero k), fun j => ?_⟩
      simp only [runItems, List.countP_nil, List.length_nil]
      rw [if_neg (by omega)]
  | cons item rest ih =>
      intro i
      obtain ⟨rs, h1, h2, h3, h4⟩ := ih (i + 1)
      have hstepEq := insertLog_ok_env env i cfg.database cfg.table
        (buildLogData cfg ctx item) (hcred i) (hconn i) (hend i)
      by_cases hif : i = f
      · have hex : env.execRes i (insertQuery cfg.database cfg.table)
            (bindValues (buildLogData cfg ctx item)) = Except.error msg := by
          rw [hif]; exact hfail _ _
        have hfst : (stepOf cfg ctx env i item).fst = Except.error msg := by
          simp [stepOf, hstepEq, hex]
        have hsnd : (stepOf cfg ctx env i item).snd =
            [Event.credCall i true, Event.connCall i true,
             Event.execCall i (insertQuery cfg.database cfg.table)
               (bindValues (buildLogData cfg ctx item)) false,
             Event.endCall i] := by
          simp [stepOf, hstepEq, hex, exOk]
        refine ⟨ResultRecord.failure msg cfg.scriptId i :: rs, ?_, ?_, ?_, ?_⟩
        · simp only [runItems, hfst, hfo, joinOk, h1, if_false, Bool.false_eq_true]
        · simp [h2]
        · intro k hk
          cases k with
          | zero =>
              simp [hif]
          | succ k' =>
              have hk' : k' < rest.length := by simpa using Nat.lt_of_succ_lt_succ hk
              have h3' := h3 k' hk'
              have e : i + (k' + 1) = i + 1 + k' := by omega
              simp only [List.getElem?_cons_succ, List.getElem_cons_succ, e, h3']
        · intro j
          have hsndall : (runItems cfg ctx env i (item :: rest)).snd =
              (stepOf cfg ctx env i item).snd ++ (runItems cfg ctx env (i + 1) rest).snd := by
            simp only [runItems, hfst, hfo, if_false, Bool.false_eq_true]
          rw [hsndall, List.countP_append, hsnd, countP_block, h4 j]
          simp only [List.length_cons]
          split_ifs <;> omega
      · have hex : env.execRes i (insertQuery cfg.database cfg.table)
            (bindValues (buildLogData cfg ctx item)) = Except.ok () := hok i hif _ _
        have hfst : (stepOf cfg ctx env i item).fst = Except.ok () := by
          simp [stepOf, hstepEq, hex]
        have hsnd : (stepOf cfg ctx env i item).snd =
            [Event.credCall i true, Event.connCall i true,
             Event.execCall i (insertQuery cfg.database cfg.table)
               (bindValues (buildLogData cfg ctx item)) true,
             Event.endCall i] := by
          simp [stepOf, hstepEq, hex, exOk]
        refine ⟨ResultRecord.success (env.timestamp i) cfg.scriptId
          (buildLogData cfg ctx item) i :: rs, ?_, ?_, ?_, ?_⟩
        · simp only [runItems, hfst, joinOk, h1]
        · simp [h2]
        · intro k hk
          cases k with
          | zero =>
              simp [hif]
          | succ k' =>
              have hk' : k' < rest.length := by simpa using Nat.lt_of_succ_lt_succ hk
              have h3' := h3 k' hk'
              have e : i + (k' + 1) = i + 1 + k' := by omega
              simp only [List.getElem?_cons_succ, List.getElem_cons_succ, e, h3']
        · intro j
          have hsndall : (runItems cfg ctx env i (item :: rest)).snd =
              (stepOf cfg ctx env i item).snd ++ (runItems cfg ctx env (i + 1) rest).snd := by
            simp only [runItems, hfst]
          rw [hsndall, List.countP_append, hsnd, countP_block, h4 j]
          simp only [List.length_cons]
          split_ifs <;> omega

/-- C5: with `failOnError` off and only the insert of the item at index `f`
failing, `execute` still returns one same-length batch; slot `f` holds a
failure record with the underlying error message and the batch script id,
every other slot holds a success record, and every item of the batch —
siblings of the failing item included — gets exactly one insert attempt. -/
theorem error_isolation_per_item (cfg : Config) (ctx : HostCtx) (env : Env)
    (items : List JSVal) (f : Nat) (msg : String)
    (hfo : cfg.failOnError = false)
    (hcred : ∀ j, env.credRes j = Except.ok ())
    (hconn : ∀ j, env.connRes j = Except.ok ())
    (hend : ∀ j, env.endRes j = Except.ok ())
    (hf : f < items.length)
    (hfail : ∀ q ps, env.execRes f q ps = Except.error msg)
    (hok : ∀ j, j ≠ f → ∀ q ps, env.execRes j q ps = Except.ok ()) :
    ∃ rs : List ResultRecord,
      (execute cfg ctx env items).fst = Except.ok [rs] ∧
      rs.length = items.length ∧
      rs[f]? = some (ResultRecord.failure msg cfg.scriptId f) ∧
      (∀ j (h : j < items.length), j ≠ f →
        rs[j]? = some (ResultRecord.success (env.timestamp j) cfg.scriptId
          (buildLogData cfg ctx items[j]) j)) ∧
      (∀ j, j < items.length →
        List.countP (isExecAt j) (execute cfg ctx env items).snd = 1) := by
  obtain ⟨rs, h1, h2, h3, h4⟩ :=
    runItems_isolated cfg ctx env hfo hcred hconn hend f msg hfail hok items 0
  refine ⟨rs, ?_, h2, ?_, ?_, ?_⟩
  · simp [execute, h1, wrapBatches]
  · have := h3 f hf
    simpa using this
  · intro j hj hjf
    have := h3 j hj
    simpa [hjf] using this
  · intro j hj
    have := h4 j
    simpa [execute, hj] using this

/-- C5 witness: in a three-item batch whose middle insert fails, slot 1 is
the failure record, slots 0 and 2 are success records, and all three items
get exactly one insert attempt. -/
theorem error_isolation_per_item_witness :
    cfg0.failOnError = false ∧
    (1 : Nat) < [itemFull, itemEmpty, itemFullB].length ∧
    ∃ rs : List ResultRecord,
      (execute cfg0 ctx0 (envFailAt 1 "boom") [itemFull, itemEmpty, itemFullB]).fst =
        Except.ok [rs] ∧
      rs.length = [itemFull, itemEmpty, itemFullB].length ∧
      rs[1]? = some (ResultRecord.failure "boom" cfg0.scriptId 1) ∧
      (∀ j (h : j < [itemFull, itemEmpty, itemFullB].length), j ≠ 1 →
        rs[j]? = some (ResultRecord.success ((envFailAt 1 "boom").timestamp j) cfg0.scriptId
          (buildLogData cfg0 ctx0 [itemFull, itemEmpty, itemFullB][j]) j)) ∧
      (∀ j, j < [itemFull, itemEmpty, itemFullB].length →
        List.countP (isExecAt j)
          (execute cfg0 ctx0 (envFailAt 1 "boom") [itemFull, itemEmpty, itemFullB]).snd = 1) :=
  ⟨rfl, by simp,
   error_isolation_per_item cfg0 ctx0 (envFailAt 1 "boom") [itemFull, itemEmpty, itemFullB]
     1 "boom" rfl (fun _ => rfl) (fun _ => rfl) (fun _ => rfl) (by simp)
     (fun _ _ => rfl) (fun j hj _ _ => by simp [envFailAt, envAllOk, hj])⟩

/-- With `failOnError` on, all connections available, inserts succeeding
strictly below `f` and failing at `f` with `msg`: a loop segment covering
`f` returns the batch-fatal error naming `f`, its trace stops at `f`, and
every earlier index has its credential lookup, connection, and completed
insert on the trace. -/
theorem runItems_fatal (cfg : Config) (ctx : HostCtx) (env : Env)
    (hfo : cfg.failOnError = true)
    (hcred : ∀ j, env.credRes j = Except.ok ())
    (hconn : ∀ j, env.connRes j = Except.ok ())
    (hend : ∀ j, env.endRes j = Except.ok ())
    (f : Nat) (msg : String)
    (hpre : ∀ j, j < f → ∀ q ps, env.execRes j q ps = Except.ok ())
    (hfail : ∀ q ps, env.execRes f q ps = Except.error msg) :
    ∀ (items : List JSVal) (i : Nat), i ≤ f → f < i + items.length →
      (runItems cfg ctx env i items).fst =
        Except.error ⟨"Failed to log execution: " ++ msg, f⟩ ∧
      (∀ e ∈ (runItems cfg ctx env i items).snd, eventIndex e ≤ f) ∧
      (∀ j, i ≤ j → j < f →
        Event.credCall j true ∈ (runItems cfg ctx env i items).snd ∧
        Event.connCall j true ∈ (runItems cfg ctx env i items).snd ∧
        Event.execCall j (insertQuery cfg.database cfg.table)
          (bindValues (buildLogData cfg ctx (items.getD (j - i) JSVal.null))) true
          ∈ (runItems cfg ctx env i items).snd) := by
  intro items
  induction items with
  | nil =>
      intro i hle hlt
      rw [List.length_nil] at hlt
      exact absurd hlt (by omega)
  | cons item rest ih =>
      intro i hle hlt
      have hstepEq := insertLog_ok_env env i cfg.database cfg.table
        (buildLogData cfg ctx item) (hcred i) (hconn i) (hend i)
      by_cases hif : i = f
      · subst hif
        have hex : env.execRes i (insertQuery cfg.database cfg.table)
            (bindValues (buildLogData cfg ctx item)) = Except.error msg := hfail _ _
        have hfst : (stepOf cfg ctx env i item).fst = Except.error msg := by
          simp [stepOf, hstepEq, hex]
        have hsnd : (stepOf cfg ctx env i item).snd =
            [Event.credCall i true, Event.connCall i true,
             Event.execCall i (insertQuery cfg.database cfg.table)
               (bindValues (buildLogData cfg ctx item)) false,
             Event.endCall i] := by
          simp [stepOf, hstepEq, hex, exOk]
        have hrun_fst : (runItems cfg ctx env i (item :: rest)).fst =
            Except.error ⟨"Failed to log execution: " ++ msg, i⟩ := by
          simp only [runItems, hfst, hfo, if_true]
        have hrun_snd : (runItems cfg ctx env i (item :: rest)).snd =
            (stepOf cfg ctx env i item).snd := by
          simp only [runItems, hfst, hfo, if_true]
        refine ⟨hrun_fst, ?_, ?_⟩
        · intro e he
          rw [hrun_snd, hsnd] at he
          simp only [List.mem_cons, List.mem_singleton, List.not_mem_nil, or_false] at he
          rcases he with h | h | h | h <;> subst h <;> simp [eventIndex]
        · intro j hij hjf
          exact absurd hjf (by omega)
      · have hi_lt : i < f := by omega
        have hex : env.execRes i (insertQuery cfg.database cfg.table)
            (bindValues (buildLogData cfg ctx item)) = Except.ok () := hpre i hi_lt _ _
        have hfst : (stepOf cfg ctx env i item).fst = Except.ok () := by
          simp [stepOf, hstepEq, hex]
        have hsnd : (stepOf cfg ctx env i item).snd =
            [Event.credCall i true, Event.connCall i true,
             Event.execCall i (insertQuery cfg.database cfg.table)
               (bindValues (buildLogData cfg ctx item)) true,
             Event.endCall i] := by
          simp [stepOf, hstepEq, hex, exOk]
        have hlt' : f < (i + 1) + rest.length := by
          rw [List.length_cons] at hlt
          omega
        obtain ⟨ih1, ih2, ih3⟩ := ih (i + 1) (by omega) hlt'
        have hrun_fst : (runItems cfg ctx env i (item :: rest)).fst =
            Except.error ⟨"Failed to log execution: " ++ msg, f⟩ := by
          simp only [runItems, hfst, joinOk, ih1]
        have hrun_snd : (runItems cfg ctx env i (item :: rest)).snd =
            (stepOf cfg ctx env i item).snd ++ (runItems cfg ctx env (i + 1) rest).snd := by
          simp only [runItems, hfst]
        refine ⟨hrun_fst, ?_, ?_⟩
        · intro e he
          rw [hrun_snd] at he
          rcases List.mem_append.mp he with h | h
          · rw [hsnd] at h
            simp only [List.mem_cons, List.mem_singleton, List.not_mem_nil, or_false] at h
            rcases h with h | h | h | h <;> subst h <;> simp [eventIndex] <;> omega
          · exact ih2 e h
        · intro j hij hjf
          by_cases hji : j = i
          · subst hji
            rw [hrun_snd, hsnd]
            refine ⟨?_, ?_, ?_⟩
            · exact List.mem_append.mpr (Or.inl (by simp))
            · exact List.mem_append.mpr (Or.inl (by simp))
            · refine List.mem_append.mpr (Or.inl ?_)
              have hgd : (item :: rest).getD (j - j) JSVal.null = item := by
                simp
              rw [hgd]
              simp
          · have hij1 : i + 1 ≤ j := by omega
            obtain ⟨a, b, c⟩ := ih3 j hij1 hjf
            have e : j - i = (j - (i + 1)) + 1 := by omega
            refine ⟨?_, ?_, ?_⟩
            · rw [hrun_snd]; exact List.mem_append.mpr (Or.inr a)
            · rw [hrun_snd]; exact List.mem_append.mpr (Or.inr b)
            · rw [hrun_snd, e]
              refine List.mem_append.mpr (Or.inr ?_)
              simpa [List.getD_cons_succ] using c

/-- C6: with `failOnError` on and the insert of the item at index `f`
failing (everything before it succeeding), `execute` returns the batch-fatal
error whose `itemIndex` is `f` and whose message includes the underlying
error message; no output batch is produced and no interaction with any item
past `f` occurs. -/
theorem fail_on_error_aborts_batch (cfg : Config) (ctx : HostCtx) (env : Env)
    (items : List JSVal) (f : Nat) (msg : String)
    (hfo : cfg.failOnError = true)
    (hcred : ∀ j, env.credRes j = Except.ok ())
    (hconn : ∀ j, env.connRes j = Except.ok ())
    (hend : ∀ j, env.endRes j = Except.ok ())
    (hf : f < items.length)
    (hpre : ∀ j, j < f → ∀ q ps, env.execRes j q ps = Except.ok ())
    (hfail : ∀ q ps, env.execRes f q ps = Except.error msg) :
    (execute cfg ctx env items).fst =
      Except.error ⟨"Failed to log execution: " ++ msg, f⟩ ∧
    (∀ e ∈ (execute cfg ctx env items).snd, eventIndex e ≤ f) := by
  obtain ⟨h1, h2, _⟩ := runItems_fatal cfg ctx env hfo hcred hconn hend f msg hpre hfail
    items 0 (Nat.zero_le f) (by simpa using hf)
  exact ⟨by simp [execute, h1, wrapBatches], by simpa [execute] using h2⟩

/-- C6 witness: a three-item batch aborting at index 1 raises the fatal
error naming index 1 and the message "boom", with no event past index 1. -/
theorem fail_on_error_aborts_batch_witness :
    cfgFail.failOnError = true ∧
    ((execute cfgFail ctx0 (envFailAt 1 "boom") [itemFull, itemEmpty, itemFullB]).fst =
      Except.error ⟨"Failed to log execution: " ++ "boom", 1⟩ ∧
     (∀ e ∈ (execute cfgFail ctx0 (envFailAt 1 "boom") [itemFull, itemEmpty, itemFullB]).snd,
       eventIndex e ≤ 1)) :=
  ⟨rfl,
   fail_on_error_aborts_batch cfgFail ctx0 (envFailAt 1 "boom")
     [itemFull, itemEmpty, itemFullB] 1 "boom" rfl (fun _ => rfl) (fun _ => rfl) (fun _ => rfl)
     (by simp)
     (fun j hj _ _ => by
       have hne : j ≠ 1 := by omega
       simp [envFailAt, envAllOk, hne])
     (fun _ _ => rfl)⟩

/-- C10: in the same fatal setting as C6, the abort does not undo prior
work: the error is raised, yet for every index before `f` the trace keeps
the credential lookup, the fresh connection, and the completed insert of
that item — the abort discards the accumulated results, but it is not
atomic with respect to the database writes already performed. -/
theorem abort_preserves_prior_inserts (cfg : Config) (ctx : HostCtx) (env : Env)
    (items : List JSVal) (f : Nat) (msg : String)
    (hfo : cfg.failOnError = true)
    (hcred : ∀ j, env.credRes j = Except.ok ())
    (hconn : ∀ j, env.connRes j = Except.ok ())
    (hend : ∀ j, env.endRes j = Except.ok ())
    (hf : f < items.length)
    (hpre : ∀ j, j < f → ∀ q ps, env.execRes j q ps = Except.ok ())
    (hfail : ∀ q ps, env.execRes f q ps = Except.error msg) :
    (execute cfg ctx env items).fst =
      Except.error ⟨"Failed to log execution: " ++ msg, f⟩ ∧
    (∀ j, j < f →
      Event.credCall j true ∈ (execute cfg ctx env items).snd ∧
      Event.connCall j true ∈ (execute cfg ctx env items).snd ∧
      Event.execCall j (insertQuery cfg.database cfg.table)
        (bindValues (buildLogData cfg ctx (items.getD j JSVal.null))) true
        ∈ (execute cfg ctx env items).snd) := by
  obtain ⟨h1, _, h3⟩ := runItems_fatal cfg ctx env hfo hcred hconn hend f msg hpre hfail
    items 0 (Nat.zero_le f) (by simpa using hf)
  refine ⟨by simp [execute, h1, wrapBatches], fun j hj => ?_⟩
  have := h3 j (Nat.zero_le j) hj
  simpa [execute, Nat.sub_zero] using this

/-- C10 witness: aborting at index 1 keeps item 0's credential lookup,
connection, and completed insert on the trace. -/
theorem abort_preserves_prior_inserts_witness :
    cfgFail.failOnError = true ∧
    ((execute cfgFail ctx0 (envFailAt 1 "boom") [itemFull, itemEmpty, itemFullB]).fst =
      Except.error ⟨"Failed to log execution: " ++ "boom", 1⟩ ∧
     (∀ j, j < 1 →
       Event.credCall j true ∈
         (execute cfgFail ctx0 (envFailAt 1 "boom") [itemFull, itemEmpty, itemFullB]).snd ∧
       Event.connCall j true ∈
         (execute cfgFail ctx0 (envFailAt 1 "boom") [itemFull, itemEmpty, itemFullB]).snd ∧
       Event.execCall j (insertQuery cfgFail.database cfgFail.table)
         (bindValues (buildLogData cfgFail ctx0
           ([itemFull, itemEmpty, itemFullB].getD j JSVal.null))) true ∈
         (execute cfgFail ctx0 (envFailAt 1 "boom") [itemFull, itemEmpty, itemFullB]).snd)) :=
  ⟨rfl,
   abort_preserves_prior_inserts cfgFail ctx0 (envFailAt 1 "boom")
     [itemFull, itemEmpty, itemFullB] 1 "boom" rfl (fun _ => rfl) (fun _ => rfl) (fun _ => rfl)
     (by simp)
     (fun j hj _ _ => by
       have hne : j ≠ 1 := by omega
       simp [envFailAt, envAllOk, hne])
     (fun _ _ => rfl)⟩

/-- Every `connection.execute` event of one `insertLog` invocation carries
the statement built from that invocation's database and table and the bound
values of that invocation's log row. -/
theorem insertLog_exec_shape (env : Env) (i : Nat) (db tbl : String) (ld : LogData) :
    ∀ e ∈ (insertLog env i db tbl ld).snd,
      (match e with
       | Event.execCall _ q ps _ => q = insertQuery db tbl ∧ ps = bindValues ld
       | _ => True) := by
  intro e he
  simp only [insertLog] at he
  cases hc : env.credRes i with
  | error er =>
      rw [hc] at he
      simp at he
      subst he
      trivial
  | ok u =>
      rw [hc] at he
      cases hn : env.connRes i with
      | error er =>
          rw [hn] at he
          simp at he
          rcases he with h | h <;> subst h <;> trivial
      | ok v =>
          rw [hn] at he
          simp at he
          rcases he with h | h | h | h <;> subst h <;> trivial

/-- Every `connection.execute` event of a run uses the batch-level statement
(built from the configured database and table) and binds the configured
script id as its first parameter, whatever the items are. -/
theorem runItems_exec_uses_cfg (cfg : Config) (ctx : HostCtx) (env : Env) :
    ∀ (items : List JSVal) (i : Nat), ∀ e ∈ (runItems cfg ctx env i items).snd,
      (match e with
       | Event.execCall _ q ps _ =>
           q = insertQuery cfg.database cfg.table ∧ ps.head? = some (JSVal.num cfg.scriptId)
       | _ => True) := by
  intro items
  induction items with
  | nil =>
      intro i e he
      simp [runItems] at he
  | cons item rest ih =>
      intro i e he
      have hmem : e ∈ (stepOf cfg ctx env i item).snd ∨
          e ∈ (runItems cfg ctx env (i + 1) rest).snd := by
        rcases hfst : (stepOf cfg ctx env i item).fst with msg | u
        · cases hfo : cfg.failOnError with
          | true =>
              have hs : (runItems cfg ctx env i (item :: rest)).snd =
                  (stepOf cfg ctx env i item).snd := by
                simp only [runItems, hfst, hfo, if_true]
              rw [hs] at he
              exact Or.inl he
          | false =>
              have hs : (runItems cfg ctx env i (item :: rest)).snd =
                  (stepOf cfg ctx env i item).snd ++
                    (runItems cfg ctx env (i + 1) rest).snd := by
                simp only [runItems, hfst, hfo, if_false, Bool.false_eq_true]
              rw [hs] at he
              exact List.mem_append.mp he
        · have hs : (runItems cfg ctx env i (item :: rest)).snd =
              (stepOf cfg ctx env i item).snd ++ (runItems cfg ctx env (i + 1) rest).snd := by
            simp only [runItems, hfst]
          rw [hs] at he
          exact List.mem_append.mp he
      rcases hmem with h | h
      · have hshape := insertLog_exec_shape env i cfg.database cfg.table
          (buildLogData cfg ctx item) e h
        cases e with
        | execCall j q ps b =>
            obtain ⟨hq, hp⟩ := hshape
            exact ⟨hq, by rw [hp]; rfl⟩
        | credCall j b => trivial
        | connCall j b => trivial
        | endCall j => trivial
      · exact ih (i + 1) e h

/-- C9: the script id, database, and table used to log items are batch-level
constants.  Every insert attempt of any run uses the statement built from
the configured database and table and binds the configured script id, and
for two runs over arbitrarily different item lists the `j`-th insert
attempt's statement and script id agree — changing an item's field values
cannot change which script id, database, or table any item is logged
under. -/
theorem batch_config_constant_across_items (cfg : Config) (ctx : HostCtx) (env : Env)
    (items1 items2 : List JSVal) :
    (∀ x ∈ insertIdents (execute cfg ctx env items1).snd,
      x = (insertQuery cfg.database cfg.table, some (JSVal.num cfg.scriptId))) ∧
    (∀ j, j < (insertIdents (execute cfg ctx env items1).snd).length →
      j < (insertIdents (execute cfg ctx env items2).snd).length →
      (insertIdents (execute cfg ctx env items1).snd)[j]? =
      (insertIdents (execute cfg ctx env items2).snd)[j]?) := by
  have key : ∀ its : List JSVal, ∀ x ∈ insertIdents (execute cfg ctx env its).snd,
      x = (insertQuery cfg.database cfg.table, some (JSVal.num cfg.scriptId)) := by
    intro its x hx
    obtain ⟨e, he, hfe⟩ := List.mem_filterMap.mp hx
    have hshape := runItems_exec_uses_cfg cfg ctx env its 0 e (by simpa [execute] using he)
    cases e with
    | execCall j q ps b =>
        obtain ⟨hq, hp⟩ := hshape
        simp only [Option.some.injEq] at hfe
        rw [← hfe, hq, hp]
    | credCall j b => simp at hfe
    | connCall j b => simp at hfe
    | endCall j => simp at hfe
  refine ⟨key items1, fun j h1 h2 => ?_⟩
  rw [List.getElem?_eq_getElem h1, List.getElem?_eq_getElem h2]
  have e1 := key items1 _ (List.getElem_mem h1)
  have e2 := key items2 _ (List.getElem_mem h2)
  rw [e1, e2]

/-- C9 witness: two single-item runs whose items differ in every field value
produce the same statement text and script id for their insert attempt. -/
theorem batch_config_constant_across_items_witness :
    (insertIdents (execute cfg0 ctx0 envAllOk [itemFull]).snd)[0]? =
    (insertIdents (execute cfg0 ctx0 envAllOk [itemFullB]).snd)[0]? :=
  (batch_config_constant_across_items cfg0 ctx0 envAllOk [itemFull] [itemFullB]).2 0
    (by decide) (by decide)
